import Mathlib

/-!
Shallow embedding of the `dot_proto_parser` repository (Rust) for checking its
natural-language specification.

Rust `String` values are embedded as `List Char` (`Str`), with the string
operations the source uses (`trim`, `split`, `trim_matches`, ...) re-implemented
as structural recursions so that every definition is executable and concrete
runs reduce inside the kernel.  Rust `HashMap`s that the source only iterates or
looks up are embedded as association lists; the list order stands for the
(unspecified) iteration order of the map.  `Vec` push/pop become list append /
`dropLast`.  The `rand::random::<u32>()` entropy source is embedded as an
explicit stream of naturals carried in the converter state.  Fallible Rust
functions returning `Result` become `Except`; `&mut self` methods additionally
return the updated state.  General recursion in the converter (which can in
fact diverge on adversarial reference graphs) is made total with an explicit
fuel parameter; exhausting the fuel yields the distinguished error
`ConverterError.outOfFuel`, which never occurs at the fuel used in the concrete
runs below.
-/

namespace DotProto

/-! ## Rust string primitives over `List Char` -/

abbrev Str := List Char

/-- Embed a Lean string literal as a `Str`. -/
def str (s : String) : Str := s.toList

/-- Rust `str::trim` (whitespace from both ends). -/
def trimStr (s : Str) : Str :=
  ((s.dropWhile Char.isWhitespace).reverse.dropWhile Char.isWhitespace).reverse

/-- Rust `str::trim_matches(pred)`: repeatedly strip matching chars from both ends. -/
def trimMatchesP (p : Char → Bool) (s : Str) : Str :=
  ((s.dropWhile p).reverse.dropWhile p).reverse

/-- Rust `str::trim_matches(c)` for a single char pattern. -/
def trimMatchesChar (c : Char) (s : Str) : Str :=
  trimMatchesP (fun a => a == c) s

/-- Rust `str::trim_end_matches(c)`. -/
def trimEndMatchesChar (c : Char) (s : Str) : Str :=
  (s.reverse.dropWhile (fun a => a == c)).reverse

/-- Rust `str::split(c)`: splits at every occurrence, keeping empty segments. -/
def splitOnChar (c : Char) : Str → List Str
  | [] => [[]]
  | a :: rest =>
    let r := splitOnChar c rest
    if a == c then [] :: r
    else
      match r with
      | [] => [[a]]
      | h :: t => (a :: h) :: t

/-- Splitting at every char satisfying `p`, keeping empty segments. -/
def splitOnPred (p : Char → Bool) : Str → List Str
  | [] => [[]]
  | a :: rest =>
    let r := splitOnPred p rest
    if p a then [] :: r
    else
      match r with
      | [] => [[a]]
      | h :: t => (a :: h) :: t

/-- Rust `str::split_whitespace`: split on whitespace runs, no empty tokens. -/
def splitWs (s : Str) : List Str :=
  (splitOnPred Char.isWhitespace s).filter (fun t => !t.isEmpty)

/-- Rust `str::starts_with(prefixString)`. -/
def startsWithStr (p s : Str) : Bool := p.isPrefixOf s

/-- Rust `&line[line.find(c)..]`: the suffix beginning at the first occurrence
of `c`, when there is one (the source always guards with `if let Some`). -/
def suffixFromChar (c : Char) : Str → Option Str
  | [] => none
  | a :: rest => if a == c then some (a :: rest) else suffixFromChar c rest

/-- Rust `str::split_once(c)`. -/
def splitOnceChar (c : Char) : Str → Option (Str × Str)
  | [] => none
  | a :: rest =>
    if a == c then some ([], rest)
    else (splitOnceChar c rest).map (fun q => (a :: q.1, q.2))

/-- Rust `str::trim_start_matches(prefixString)`: repeatedly strip the prefix.
Implemented with a fuel bounded by the string length. -/
def trimStartMatchesStrAux : Nat → Str → Str → Str
  | 0, _, s => s
  | fuel+1, p, s =>
    if p ≠ [] ∧ p.isPrefixOf s then trimStartMatchesStrAux fuel p (s.drop p.length)
    else s

def trimStartMatchesStr (p s : Str) : Str :=
  trimStartMatchesStrAux (s.length + 1) p s

/-- Substring test, for Rust `str::contains("map<")`. -/
def containsSub (needle : Str) : Str → Bool
  | [] => needle.isEmpty
  | a :: rest => needle.isPrefixOf (a :: rest) || containsSub needle rest

/-- Rust `i32/u32` digit parsing helper. -/
def parseDigitsAux : Str → Nat → Option Nat
  | [], acc => some acc
  | c :: rest, acc =>
    if c.isDigit then parseDigitsAux rest (acc * 10 + (c.toNat - 48)) else none

def parseNatStr : Str → Option Nat
  | [] => none
  | s => parseDigitsAux s 0

/-- Rust `str::parse::<i32>()`: optional sign, digits, i32 range check. -/
def parseI32 (s : Str) : Option Int :=
  match s with
  | '-' :: rest =>
    (parseNatStr rest).bind fun n =>
      if n ≤ 2^31 then some (-(n : Int)) else none
  | '+' :: rest =>
    (parseNatStr rest).bind fun n =>
      if n < 2^31 then some (n : Int) else none
  | _ =>
    (parseNatStr s).bind fun n =>
      if n < 2^31 then some (n : Int) else none

/-- Decimal rendering of a `Nat` (fuel-bounded so it reduces in the kernel). -/
def natToStrAux : Nat → Nat → Str
  | 0, _ => []
  | fuel+1, n =>
    if n < 10 then [Char.ofNat (48 + n)]
    else natToStrAux fuel (n / 10) ++ [Char.ofNat (48 + n % 10)]

def natToStr (n : Nat) : Str := natToStrAux (n + 1) n

/-- Rust `format!("{}", n)` for an `i32`. -/
def intToStr : Int → Str
  | Int.ofNat n => natToStr n
  | Int.negSucc m => '-' :: natToStr (m + 1)

/-- `Vec<String>::join(sep)`. -/
def joinWith (sep : Str) : List Str → Str
  | [] => []
  | [x] => x
  | x :: y :: rest => x ++ sep ++ joinWith sep (y :: rest)

/-- Concatenation of a list of strings. -/
def catStrs (l : List Str) : Str := l.foldr (· ++ ·) []

/-- The `"  ".repeat(indent_level)` indentation of the emitter. -/
def indentStr (lvl : Nat) : Str := catStrs (List.replicate lvl (str "  "))

/-- Rust `str::lines()`: split on newline; a trailing newline yields no extra
empty line; a trailing `\r` on a line is stripped. -/
def rustLines (s : Str) : List Str :=
  let stripCR : Str → Str := fun l =>
    if l.getLast? == some '\r' then l.dropLast else l
  if s.isEmpty then []
  else
    let parts := splitOnChar '\n' s
    let parts := if parts.getLast? == some [] then parts.dropLast else parts
    parts.map stripCR

/-- Rust `char::to_uppercase` / `to_lowercase`, ASCII fragment (all inputs in
the verified runs are ASCII). -/
def upperStr (s : Str) : Str := s.map Char.toUpper

def lowerStr (s : Str) : Str := s.map Char.toLower

/-- Byte-lexicographic order on strings, as used by Rust's `BTreeMap<String,_>`
(coincides with code-point order on ASCII). -/
def strLt : Str → Str → Bool
  | [], [] => false
  | [], _ :: _ => true
  | _ :: _, [] => false
  | a :: as', b :: bs => if a < b then true else if b < a then false else strLt as' bs

/-! ## errors.rs -/

/-- `ConverterError` (src/errors.rs).  The `Io`/`JsonParse` pass-through
variants belong to the out-of-scope I/O layer and carry no structure used by
the core; `outOfFuel` is the embedding's marker for exhausted recursion fuel
(Rust: unbounded recursion / stack exhaustion). -/
inductive ConverterError where
  | unsupportedSchemaType (s : Str)
  | missingReference (s : Str)
  | invalidArrayDefinition
  | circularReference (s : Str)
  | duplicateMessageName (s : Str)
  | invalidParameterLocation (s : Str)
  | unsupportedHttpMethod (s : Str)
  | invalidFieldName (s : Str)
  | serviceNotFound (s : Str)
  | messageNotFound (s : Str)
  | outOfFuel
  deriving DecidableEq

/-- `ProtoParseError` (src/errors.rs), minus the I/O pass-through. -/
inductive ProtoParseError where
  | parseError (line : Nat) (message : Str)
  | unexpectedToken (s : Str)
  | missingField (s : Str)
  | duplicateDefinition (s : Str)
  deriving DecidableEq

/-- The top-level `Error` (src/errors.rs), minus the I/O pass-throughs. -/
inductive Error where
  | protoParse (e : ProtoParseError)
  | converter (e : ConverterError)
  deriving DecidableEq

/-! ## domain.rs: the Tree Model -/

inductive FieldRule where
  | optional
  | required
  | repeated
  deriving DecidableEq

structure Field where
  name : Str
  type_ : Str
  number : Int
  rule : FieldRule
  comments : List Str
  options : List (Str × Str)
  deriving DecidableEq

structure EnumValue where
  name : Str
  number : Int
  comments : List Str
  deriving DecidableEq

structure Enum where
  name : Str
  values : List EnumValue
  comments : List Str
  deriving DecidableEq

structure Method where
  name : Str
  input_type : Str
  output_type : Str
  comments : List Str
  options : List (Str × Str)
  deriving DecidableEq

structure Service where
  name : Str
  methods : List Method
  comments : List Str
  deriving DecidableEq

/-- `Message` (src/domain.rs): recursive through its nested messages, hence an
inductive rather than a structure. -/
inductive Message where
  | mk (name : Str) (fields : List Field) (comments : List Str)
       (nestedMessages : List Message) (nestedEnums : List Enum)

def Message.name : Message → Str
  | .mk n _ _ _ _ => n

def Message.fields : Message → List Field
  | .mk _ f _ _ _ => f

def Message.comments : Message → List Str
  | .mk _ _ c _ _ => c

def Message.nestedMessages : Message → List Message
  | .mk _ _ _ nm _ => nm

def Message.nestedEnums : Message → List Enum
  | .mk _ _ _ _ ne => ne

structure ProtoFile where
  syntax_ : Str
  package : Str
  imports : List Str
  messages : List Message
  enums : List Enum
  services : List Service

/-- `ProtoFile::default()` (derived `Default`). -/
def ProtoFile.defaultFile : ProtoFile :=
  { syntax_ := [], package := [], imports := [], messages := [], enums := [], services := [] }

/-- `ProtoFile::new` (src/domain.rs). -/
def ProtoFile.new (packageName : Str) : ProtoFile :=
  { syntax_ := str "proto3"
    package := packageName
    imports := [str "google/protobuf/empty.proto",
                str "google/protobuf/timestamp.proto",
                str "google/protobuf/struct.proto"]
    messages := []
    enums := []
    services := [] }

def ProtoFile.addImport (f : ProtoFile) (importPath : Str) : ProtoFile :=
  if f.imports.contains importPath then f
  else { f with imports := f.imports ++ [importPath] }

def ProtoFile.addMessage (f : ProtoFile) (m : Message) : Except ConverterError ProtoFile :=
  if f.messages.any (fun x => x.name == m.name) then
    .error (.duplicateMessageName m.name)
  else .ok { f with messages := f.messages ++ [m] }

def ProtoFile.addEnum (f : ProtoFile) (e : Enum) : Except ConverterError ProtoFile :=
  if f.enums.any (fun x => x.name == e.name) then
    .error (.duplicateMessageName e.name)
  else .ok { f with enums := f.enums ++ [e] }

def ProtoFile.addService (f : ProtoFile) (s : Service) : Except ConverterError ProtoFile :=
  if f.services.any (fun x => x.name == s.name) then
    .error (.duplicateMessageName s.name)
  else .ok { f with services := f.services ++ [s] }

def ProtoFile.findMessage (f : ProtoFile) (name : Str) : Option Message :=
  f.messages.find? (fun m => m.name == name)

def Message.addComment (m : Message) (c : Str) : Message :=
  match m with
  | .mk n fs cs nm ne => .mk n fs (cs ++ [c]) nm ne

def Message.addField (m : Message) (f : Field) : Except ConverterError Message :=
  match m with
  | .mk n fs cs nm ne =>
    if fs.any (fun x => x.name == f.name) then
      .error (.invalidFieldName (str "Duplicate field name: " ++ f.name))
    else .ok (.mk n (fs ++ [f]) cs nm ne)

def Message.addNestedMessage (m : Message) (child : Message) : Except ConverterError Message :=
  match m with
  | .mk n fs cs nm ne =>
    if nm.any (fun x => x.name == child.name) then
      .error (.duplicateMessageName child.name)
    else .ok (.mk n fs cs (nm ++ [child]) ne)

def Message.addNestedEnum (m : Message) (e : Enum) : Except ConverterError Message :=
  match m with
  | .mk n fs cs nm ne =>
    if ne.any (fun x => x.name == e.name) then
      .error (.duplicateMessageName e.name)
    else .ok (.mk n fs cs nm (ne ++ [e]))

def Field.new (name type_ : Str) (number : Int) (rule : FieldRule) : Field :=
  { name := name, type_ := type_, number := number, rule := rule,
    comments := [], options := [] }

/-- `HashMap::insert` on the embedded association list: replace an existing
binding, else append. -/
def insertAssoc (l : List (Str × Str)) (k v : Str) : List (Str × Str) :=
  if l.any (fun p => p.1 == k) then
    l.map (fun p => if p.1 == k then (k, v) else p)
  else l ++ [(k, v)]

def Field.addOption (f : Field) (k v : Str) : Field :=
  { f with options := insertAssoc f.options k v }

def Enum.addValue (e : Enum) (v : EnumValue) : Except ConverterError Enum :=
  if e.values.any (fun x => x.name == v.name) then
    .error (.invalidFieldName (str "Duplicate enum value: " ++ v.name))
  else .ok { e with values := e.values ++ [v] }

def Service.addMethod (s : Service) (m : Method) : Except ConverterError Service :=
  if s.methods.any (fun x => x.name == m.name) then
    .error (.invalidFieldName (str "Duplicate method name: " ++ m.name))
  else .ok { s with methods := s.methods ++ [m] }

def Method.new (name inputType outputType : Str) : Method :=
  { name := name, input_type := inputType, output_type := outputType,
    comments := [], options := [] }

def Method.addComment (m : Method) (c : Str) : Method :=
  { m with comments := m.comments ++ [c] }

def Method.addOption (m : Method) (k v : Str) : Method :=
  { m with options := insertAssoc m.options k v }

/-! ## domain.rs: the text emitter -/

/-- Comment lines of the emitter: `"{indent}// {comment}\n"` each. -/
def commentsText (indent : Str) (comments : List Str) : Str :=
  catStrs (comments.map (fun c => indent ++ str "// " ++ c ++ [Char.ofNat 10]))

/-- `Field::to_proto_text` (src/domain.rs). -/
def Field.toProtoText (f : Field) (indentLevel : Nat) : Str :=
  let indent := indentStr indentLevel
  let ruleStr :=
    match f.rule with
    | .optional => str "optional "
    | .required => []
    | .repeated => str "repeated "
  let core := indent ++ ruleStr ++ f.type_ ++ [' '] ++ f.name ++ str " = " ++ intToStr f.number
  let withOpts :=
    if f.options.isEmpty then core
    else
      core ++ str " [" ++
        joinWith (str ", ") (f.options.map (fun p => p.1 ++ str "=\"" ++ p.2 ++ str "\"")) ++
        str "]"
  commentsText indent f.comments ++ withOpts ++ str ";\n"

/-- `EnumValue::to_proto_text` (note the extra space of `"{} {} = {};\n"`). -/
def EnumValue.toProtoText (v : EnumValue) (indentLevel : Nat) : Str :=
  let indent := indentStr indentLevel
  commentsText indent v.comments ++
    indent ++ [' '] ++ v.name ++ str " = " ++ intToStr v.number ++ str ";\n"

/-- `Enum::to_proto_text`. -/
def Enum.toProtoText (e : Enum) (indentLevel : Nat) : Str :=
  let indent := indentStr indentLevel
  commentsText indent e.comments ++
    indent ++ str "enum " ++ e.name ++ str " \x7b\n" ++
    catStrs (e.values.map (fun v => v.toProtoText (indentLevel + 1))) ++
    indent ++ str "\x7d\n\n"

/-- `Method::to_proto_text`. -/
def Method.toProtoText (m : Method) : Str :=
  let httpComment :=
    match m.options.lookup (str "http_method"), m.options.lookup (str "http_path") with
    | some hm, some hp => str "  // HTTP: " ++ hm ++ [' '] ++ hp ++ [Char.ofNat 10]
    | _, _ => []
  let otherOptions :=
    (m.options.filter (fun p => p.1 ≠ str "http_method" ∧ p.1 ≠ str "http_path")).map
      (fun p => p.1 ++ str "=\"" ++ p.2 ++ str "\"")
  let core :=
    str "  rpc " ++ m.name ++ str " (" ++ m.input_type ++ str ") returns (" ++
      m.output_type ++ str ")"
  let withOpts :=
    if otherOptions.isEmpty then core
    else core ++ str " [" ++ joinWith (str ", ") otherOptions ++ str "]"
  commentsText (str "  ") m.comments ++ httpComment ++ withOpts ++ str ";\n\n"

/-- `Service::to_proto_text`. -/
def Service.toProtoText (s : Service) : Str :=
  str "service " ++ s.name ++ str " \x7b\n" ++
    catStrs (s.methods.map Method.toProtoText) ++
    str "\x7d\n\n"

mutual

/-- `Message::to_proto_text` (src/domain.rs), recursive through the nested
messages. -/
def Message.toProtoText : Message → Nat → Str
  | .mk name fields comments nested nestedEnums, lvl =>
    let indent := indentStr lvl
    commentsText indent comments ++
      indent ++ str "message " ++ name ++ str " \x7b\n" ++
      catStrs (fields.map (fun f => f.toProtoText (lvl + 1))) ++
      messagesText nested (lvl + 1) ++
      catStrs (nestedEnums.map (fun e => e.toProtoText (lvl + 1))) ++
      indent ++ str "\x7d\n\n"

def messagesText : List Message → Nat → Str
  | [], _ => []
  | m :: ms, lvl => m.toProtoText lvl ++ messagesText ms lvl

end

/-- `ProtoFile::to_proto_text` (src/domain.rs). -/
def ProtoFile.toProtoText (f : ProtoFile) : Str :=
  str "syntax = \"" ++ f.syntax_ ++ str "\";\n\n" ++
    str "package " ++ f.package ++ str ";\n\n" ++
    catStrs (f.imports.map (fun i => str "import \"" ++ i ++ str "\";\n")) ++
    (if f.imports.isEmpty then [] else [Char.ofNat 10]) ++
    messagesText f.messages 0 ++
    catStrs (f.enums.map (fun e => e.toProtoText 0)) ++
    catStrs (f.services.map Service.toProtoText)

/-! ## proto2model.rs: the text parser -/

/-- `ProtoItem` (src/proto2model.rs): an open construct on the parser stack. -/
inductive ProtoItem where
  | message (m : Message)
  | enumItem (e : Enum)
  | service (s : Service)

/-- `LineType` (src/proto2model.rs). -/
inductive LineType where
  | syntaxDecl (s : Str)
  | packageDecl (s : Str)
  | importDecl (s : Str)
  | messageStart (m : Message)
  | enumStart (e : Enum)
  | serviceStart (s : Service)
  | fieldDecl (f : Field)
  | enumValueDecl (v : EnumValue)
  | methodDecl (m : Method)
  | endBlock
  | comment

def Message.setComments : Message → List Str → Message
  | .mk n fs _ nm ne, cs => .mk n fs cs nm ne

/-- The shared bracketed-option scanner of `parse_field` / the `rpc` arm:
`find('[')`, `trim_matches('[' | ']')`, split on commas, `split_once('=')`,
trim key, trim value and strip its quotes. -/
def parseOptionPairs (line : Str) : List (Str × Str) :=
  match suffixFromChar '[' line with
  | none => []
  | some tail =>
    let optionsStr := trimMatchesP (fun c => c == '[' || c == ']') tail
    (splitOnChar ',' optionsStr).filterMap fun option =>
      let option := trimStr option
      (splitOnceChar '=' option).map fun kv =>
        (trimStr kv.1, trimMatchesChar '"' (trimStr kv.2))

namespace ProtoParser

/-- `ProtoParser::parse_field`.  The second component of the result is the
pending-comment buffer after the call (`std::mem::take` empties it).
Where the Rust code would index `parts` out of bounds (a panic, unreachable in
the runs verified here), the embedding reads an empty token instead. -/
def parseField (lineNum : Nat) (pending : List Str) (line0 : Str) :
    Except ProtoParseError (LineType × List Str) :=
  let line := trimEndMatchesChar ';' line0
  let parts := splitWs line
  if parts.length < 4 then
    .error (.parseError lineNum (str "Invalid field declaration"))
  else
    let p0 := parts.headD []
    let (rule, idx) : FieldRule × Nat :=
      if p0 == str "repeated" then (.repeated, 1)
      else if p0 == str "optional" then (.optional, 1)
      else if p0 == str "required" then (.required, 1)
      else (.required, 0)
    let type_ := parts.getD idx []
    let name := parts.getD (idx + 1) []
    if parts.getD (idx + 2) [] ≠ str "=" then
      .error (.parseError lineNum (str "Expected '=' in field declaration"))
    else
      match parseI32 (parts.getD (idx + 3) []) with
      | none => .error (.parseError lineNum (str "Invalid field number"))
      | some number =>
        let field := { Field.new name type_ number rule with comments := pending }
        let field := (parseOptionPairs line).foldl
          (fun f kv => f.addOption kv.1 kv.2) field
        .ok (.fieldDecl field, [])

/-- `ProtoParser::parse_enum_value`. -/
def parseEnumValue (lineNum : Nat) (pending : List Str) (line0 : Str) :
    Except ProtoParseError (LineType × List Str) :=
  let line := trimEndMatchesChar ';' line0
  let parts := splitWs line
  if parts.length ≠ 3 || parts.getD 1 [] ≠ str "=" then
    .error (.parseError lineNum (str "Invalid enum value declaration"))
  else
    match parseI32 (parts.getD 2 []) with
    | none => .error (.parseError lineNum (str "Invalid enum value number"))
    | some number =>
      .ok (.enumValueDecl { name := parts.headD [], number := number, comments := pending }, [])

/-- `ProtoParser::parse_line`.  `stack` is the open-construct stack with its
top at the head (Rust `Vec::last` = head here). -/
def parseLine (lineNum : Nat) (pending : List Str) (line : Str) (stack : List ProtoItem) :
    Except ProtoParseError (LineType × List Str) :=
  if line.isEmpty then .ok (.comment, pending)
  else if startsWithStr (str "//") line then
    .ok (.comment, pending ++ [trimStr (line.drop 2)])
  else if line == str "\x7d" then .ok (.endBlock, pending)
  else if startsWithStr (str "syntax") line then
    let parts := splitOnChar '=' line
    if parts.length ≠ 2 then
      .error (.parseError lineNum (str "Invalid syntax declaration"))
    else
      .ok (.syntaxDecl (trimMatchesP (fun c => c == '"' || c == ';') (parts.getD 1 [])), pending)
  else if startsWithStr (str "package") line then
    let parts := splitWs line
    if parts.length ≠ 2 || (parts.getD 1 []).getLast? ≠ some ';' then
      .error (.parseError lineNum (str "Invalid package declaration"))
    else
      .ok (.packageDecl (trimEndMatchesChar ';' (parts.getD 1 [])), pending)
  else if startsWithStr (str "import") line then
    let parts := splitWs line
    if parts.length ≠ 2 || (parts.getD 1 []).getLast? ≠ some ';' then
      .error (.parseError lineNum (str "Invalid import declaration"))
    else
      .ok (.importDecl (trimMatchesP (fun c => c == '"' || c == ';') (parts.getD 1 [])), pending)
  else if startsWithStr (str "message") line then
    let name := trimStr ((splitOnChar '{' (line.drop 7)).headD [])
    if name.isEmpty then
      .error (.parseError lineNum (str "Message name cannot be empty"))
    else
      .ok (.messageStart (.mk name [] [] [] []), pending)
  else if startsWithStr (str "enum") line then
    let name := trimStr ((splitOnChar '{' (line.drop 4)).headD [])
    if name.isEmpty then
      .error (.parseError lineNum (str "Enum name cannot be empty"))
    else
      .ok (.enumStart { name := name, values := [], comments := [] }, pending)
  else if startsWithStr (str "service") line then
    let name := trimStr ((splitOnChar '{' (line.drop 7)).headD [])
    if name.isEmpty then
      .error (.parseError lineNum (str "Service name cannot be empty"))
    else
      .ok (.serviceStart { name := name, methods := [], comments := [] }, pending)
  else if startsWithStr (str "rpc") line then
    let parts := splitWs line
    if parts.length < 5 then
      .error (.parseError lineNum (str "Invalid method declaration"))
    else
      let method := Method.new (parts.getD 1 [])
        (trimMatchesChar '(' (parts.getD 3 []))
        (trimMatchesChar ')' (parts.getD 4 []))
      let method := (parseOptionPairs line).foldl
        (fun m kv => m.addOption kv.1 kv.2) method
      .ok (.methodDecl method, pending)
  else
    match stack.head? with
    | some (.message _) => parseField lineNum pending line
    | some (.enumItem _) => parseEnumValue lineNum pending line
    | _ => .error (.parseError lineNum (str "Unknown line type"))

end ProtoParser

/-- The mutable state of one `ProtoParser::parse` call: the pending-comment
buffer, the open-construct stack (top at head) and the file being built. -/
structure PState where
  pending : List Str
  stack : List ProtoItem
  file : ProtoFile

/-- The `match item` of the `LineType::End` arm: the popped construct is
inserted into the file via the name-uniqueness-checked builders. -/
def insertPopped (item : ProtoItem) (f : ProtoFile) : Except ConverterError ProtoFile :=
  match item with
  | .message m => f.addMessage m
  | .enumItem e => f.addEnum e
  | .service s => f.addService s

/-- The `match self.parse_line(..)?` arm bodies of `ProtoParser::parse`.
`st.pending` is the buffer as updated by `parse_line` for this line. -/
def applyLineType (lt : LineType) (st : PState) : Except Error PState :=
  match lt with
  | .syntaxDecl s =>
    .ok { st with file := { st.file with syntax_ := s }, pending := [] }
  | .packageDecl p =>
    .ok { st with file := { st.file with package := p }, pending := [] }
  | .importDecl i =>
    .ok { st with file := { st.file with imports := st.file.imports ++ [i] }, pending := [] }
  | .messageStart m =>
    .ok { st with stack := ProtoItem.message (m.setComments st.pending) :: st.stack, pending := [] }
  | .enumStart e =>
    .ok { st with stack := ProtoItem.enumItem { e with comments := st.pending } :: st.stack, pending := [] }
  | .serviceStart s =>
    .ok { st with stack := ProtoItem.service { s with comments := st.pending } :: st.stack, pending := [] }
  | .fieldDecl f =>
    let f := { f with comments := st.pending }
    match st.stack with
    | ProtoItem.message m :: rest =>
      match m.addField f with
      | .error e => .error (.converter e)
      | .ok m' => .ok { pending := [], stack := ProtoItem.message m' :: rest, file := st.file }
    | _ => .ok { st with pending := [] }
  | .enumValueDecl v =>
    let v := { v with comments := st.pending }
    match st.stack with
    | ProtoItem.enumItem e :: rest =>
      match e.addValue v with
      | .error err => .error (.converter err)
      | .ok e' => .ok { pending := [], stack := ProtoItem.enumItem e' :: rest, file := st.file }
    | _ => .ok { st with pending := [] }
  | .methodDecl m =>
    let m := { m with comments := st.pending }
    match st.stack with
    | ProtoItem.service s :: rest =>
      match s.addMethod m with
      | .error err => .error (.converter err)
      | .ok s' => .ok { pending := [], stack := ProtoItem.service s' :: rest, file := st.file }
    | _ => .ok { st with pending := [] }
  | .endBlock =>
    match st.stack with
    | [] => .ok { st with pending := [] }
    | item :: rest =>
      match insertPopped item st.file with
      | .error e => .error (.converter e)
      | .ok f' => .ok { pending := [], stack := rest, file := f' }
  | .comment => .ok st

/-- One iteration of the `for (line_num, line) in content.lines().enumerate()`
loop of `ProtoParser::parse`. -/
def parseStep (lineNum : Nat) (st : PState) (rawLine : Str) : Except Error PState :=
  let line := trimStr rawLine
  if line.isEmpty then .ok st
  else
    match ProtoParser.parseLine lineNum st.pending line st.stack with
    | .error e => .error (.protoParse e)
    | .ok (lt, pending') => applyLineType lt { st with pending := pending' }

def parseLoop : Nat → PState → List Str → Except Error PState
  | _, st, [] => .ok st
  | lineNum, st, l :: ls =>
    match parseStep lineNum st l with
    | .error e => .error e
    | .ok st' => parseLoop (lineNum + 1) st' ls

/-- `ProtoParser::parse` (src/proto2model.rs): a fresh parser run on `content`.
Whatever is still on the open-construct stack at the end is dropped; the file
built so far is returned. -/
def ProtoParser.parse (content : Str) : Except Error ProtoFile :=
  (parseLoop 1 ⟨[], [], ProtoFile.defaultFile⟩ (rustLines content)).map (fun st => st.file)

/-! ## swagger2proto.rs: input schema model

`serde_json::Value` enum literals are embedded by the three shapes the source
distinguishes (string, number, anything else).  The serde maps
(`HashMap<String, _>`) are embedded as association lists whose order stands for
the map's iteration order.  Struct fields of the source that no converter code
ever reads (`nullable`, `default`, `example`, `info`, `tags`, response
`headers`, ...) are omitted from the embedding. -/

inductive JsonVal where
  | string (s : Str)
  | number (n : Int)
  | other

mutual
inductive Schema where
  | mk (type_ : Option Str) (format : Option Str) (description : Option Str)
       (items : Option SchemaRef) (properties : Option (List (Str × Schema)))
       (additionalProperties : Option SchemaRef) (required : Option (List Str))
       (enumValues : Option (List JsonVal)) (refPath : Option Str)
       (oneOf : Option (List SchemaRef)) (allOf : Option (List SchemaRef))
       (anyOf : Option (List SchemaRef))

inductive SchemaRef where
  | ref (refPath : Str)
  | inline (s : Schema)
end

def Schema.type_ : Schema → Option Str
  | .mk t _ _ _ _ _ _ _ _ _ _ _ => t

def Schema.format : Schema → Option Str
  | .mk _ f _ _ _ _ _ _ _ _ _ _ => f

def Schema.description : Schema → Option Str
  | .mk _ _ d _ _ _ _ _ _ _ _ _ => d

def Schema.items : Schema → Option SchemaRef
  | .mk _ _ _ i _ _ _ _ _ _ _ _ => i

def Schema.properties : Schema → Option (List (Str × Schema))
  | .mk _ _ _ _ p _ _ _ _ _ _ _ => p

def Schema.additionalProperties : Schema → Option SchemaRef
  | .mk _ _ _ _ _ a _ _ _ _ _ _ => a

def Schema.required : Schema → Option (List Str)
  | .mk _ _ _ _ _ _ r _ _ _ _ _ => r

def Schema.enumValues : Schema → Option (List JsonVal)
  | .mk _ _ _ _ _ _ _ e _ _ _ _ => e

def Schema.refPath : Schema → Option Str
  | .mk _ _ _ _ _ _ _ _ r _ _ _ => r

def Schema.oneOf : Schema → Option (List SchemaRef)
  | .mk _ _ _ _ _ _ _ _ _ o _ _ => o

def Schema.allOf : Schema → Option (List SchemaRef)
  | .mk _ _ _ _ _ _ _ _ _ _ a _ => a

def Schema.anyOf : Schema → Option (List SchemaRef)
  | .mk _ _ _ _ _ _ _ _ _ _ _ a => a

/-- `Components` (src/swagger2proto.rs); only `schemas` is ever read. -/
structure Components where
  schemas : Option (List (Str × Schema))

structure Parameter where
  name : Str
  in_ : Str
  description : Option Str
  required : Option Bool
  schema : Option SchemaRef
  type_ : Option Str

structure MediaType where
  schema : Option SchemaRef

structure RequestBody where
  description : Option Str
  content : List (Str × MediaType)
  required : Option Bool

structure Response where
  description : Str
  content : Option (List (Str × MediaType))
  refPath : Option Str
  schema : Option SchemaRef

structure Operation where
  tags : Option (List Str)
  summary : Option Str
  description : Option Str
  operationId : Option Str
  parameters : Option (List Parameter)
  requestBody : Option RequestBody
  responses : List (Str × Response)
  deprecated : Option Bool

structure PathItem where
  get : Option Operation
  post : Option Operation
  put : Option Operation
  delete : Option Operation
  patch : Option Operation

structure SwaggerDoc where
  paths : List (Str × PathItem)
  definitions : Option (List (Str × Schema))
  components : Option Components

/-! ## swagger2proto.rs: pure helpers -/

def Field.addComment (f : Field) (c : Str) : Field :=
  { f with comments := f.comments ++ [c] }

/-- `NameFormatter::sanitize_field_name` character loop. -/
def sanitizeLoop : Str → Str → Bool → Str
  | [], acc, _ => acc
  | c :: rest, acc, prevU =>
    if c.isAlphanum then sanitizeLoop rest (acc ++ [c]) false
    else if !prevU && !acc.isEmpty then sanitizeLoop rest (acc ++ ['_']) true
    else sanitizeLoop rest acc prevU

/-- `NameFormatter::sanitize_field_name` (same code in src/name_formatter.rs
and src/swagger2proto.rs). -/
def sanitizeFieldName (name : Str) : Str :=
  let s := sanitizeLoop name [] false
  let s := if s.getLast? == some '_' then s.dropLast else s
  let s :=
    if (match s.head? with | some c => c.isDigit | none => false) then '_' :: s else s
  if s.isEmpty then str "field" else s

/-- `NameFormatter::to_pascal_case`. -/
def toPascalCase (s : Str) : Str :=
  catStrs (((splitOnPred (fun c => !c.isAlphanum) s).filter (fun p => !p.isEmpty)).map
    (fun p =>
      match p with
      | [] => []
      | c :: rest => c.toUpper :: rest))

/-- `SwaggerToProtoConverter::resolve_ref_name`. -/
def resolveRefName (refPath : Str) : Str :=
  ((splitOnChar '/' refPath).getLast?).getD (str "UnknownRef")

/-- `SwaggerToProtoConverter::resolve_schema_ref`: the trailing path segment of
the reference is looked up first in the legacy `definitions` container, then in
the modern `components.schemas` container. -/
def resolveSchemaRef (sr : SchemaRef) (defs : List (Str × Schema))
    (comps : Option Components) : Except ConverterError Schema :=
  match sr with
  | .inline s => .ok s
  | .ref rp =>
    match (splitOnChar '/' rp).getLast? with
    | none => .error (.missingReference rp)
    | some refName =>
      match defs.lookup refName with
      | some s => .ok s
      | none =>
        match comps with
        | some c =>
          match c.schemas with
          | some schemas =>
            match schemas.lookup refName with
            | some s => .ok s
            | none => .error (.missingReference rp)
          | none => .error (.missingReference rp)
        | none => .error (.missingReference rp)

/-- The enum-literal naming shared by the three enum-synthesis sites:
a string is upper-cased with non-alphanumerics turned into underscores, a
number becomes `VALUE_<n>`, anything else becomes `VALUE_<i+1>`. -/
def enumVariantName (v : JsonVal) (i : Nat) : Str :=
  match v with
  | .string s => (upperStr s).map (fun c => if c.isAlphanum then c else '_')
  | .number n => str "VALUE_" ++ intToStr n
  | .other => str "VALUE_" ++ natToStr (i + 1)

/-- The `for (i, value) in enum_values.iter().enumerate()` loops: values are
numbered `i + base` (base 0 at the property site, base 1 at the root/anonymous
sites), inserted through the uniqueness-checked `Enum::add_value`. -/
def buildEnumValues (e : Enum) (vs : List JsonVal) (i base : Nat) : Except ConverterError Enum :=
  match vs with
  | [] => .ok e
  | v :: rest =>
    match e.addValue { name := enumVariantName v i, number := ((i + base : Nat) : Int), comments := [] } with
    | .error err => .error err
    | .ok e' => buildEnumValues e' rest (i + 1) base

/-- `Message::add_field` folded over a list (the `for field in fields` loop of
`handle_one_of_any_of`). -/
def addFieldsToMessage (m : Message) : List Field → Except ConverterError Message
  | [] => .ok m
  | f :: rest =>
    match m.addField f with
    | .error e => .error e
    | .ok m' => addFieldsToMessage m' rest

/-- `SwaggerToProtoConverter::generate_method_name`: no `operationId` makes the
name `<HTTP-verb><PascalCase(path with separators replaced then all
non-alphanumerics removed)>`. -/
def generateMethodName (path httpMethod : Str) (op : Operation) : Str :=
  match op.operationId with
  | some id => toPascalCase id
  | none =>
    let cleanPath :=
      ((trimMatchesChar '/' path).map
        (fun c => if c == '/' || c == Char.ofNat 123 || c == Char.ofNat 125 then '_' else c)).filter
        Char.isAlphanum
    httpMethod ++ toPascalCase cleanPath

/-! ## swagger2proto.rs: converter state -/

/-- The mutable fields of `SwaggerToProtoConverter` plus the embedded entropy
stream for `rand::random::<u32>()` (one draw per call; an exhausted stream
yields 0).  `generated_messages : HashMap<String, usize>` is only ever tested
with `contains_key` and inserted with value 1, so only its key set is kept. -/
structure ConvState where
  proto : ProtoFile
  generatedMessages : List Str
  currentRefs : List Str
  rng : List Nat

/-- One draw of `rand::random::<u32>()`. -/
def nextRand (st : ConvState) : Nat × ConvState :=
  match st.rng with
  | [] => (0, st)
  | r :: rs => (r, { st with rng := rs })

/-- `SwaggerToProtoConverter::new`, with the entropy stream supplied. -/
def ConvState.new (packageName : Str) (rng : List Nat) : ConvState :=
  { proto := ProtoFile.new packageName, generatedMessages := [], currentRefs := [], rng := rng }

/-- `SwaggerToProtoConverter::handle_root_enum`. -/
def handleRootEnum (st : ConvState) (msg : Message) (messageName : Str)
    (enumValues : List JsonVal) : Except ConverterError Message × ConvState :=
  let enumName := messageName ++ str "Status"
  match buildEnumValues { name := enumName, values := [], comments := [] } enumValues 0 1 with
  | .error e => (.error e, st)
  | .ok enumDef =>
    match st.proto.addEnum enumDef with
    | .error e => (.error e, st)
    | .ok p =>
      let st := { st with proto := p }
      match msg.addField (Field.new (str "status") enumName 1 .optional) with
      | .error e => (.error e, st)
      | .ok m => (.ok m, st)

/-- The `for message in request_messages` insertion loop of `generate_service`. -/
def addMessages (st : ConvState) : List Message → Except ConverterError Unit × ConvState
  | [] => (.ok (), st)
  | m :: rest =>
    match st.proto.addMessage m with
    | .error e => (.error e, st)
    | .ok p => addMessages { st with proto := p } rest

/-- `BTreeMap::entry(tag).or_default().push(x)` on the sorted association list
embedding of the tag map. -/
def btreePush (m : List (Str × List (Str × Str × Operation))) (k : Str)
    (x : Str × Str × Operation) : List (Str × List (Str × Str × Operation)) :=
  match m with
  | [] => [(k, [x])]
  | (k', v) :: rest =>
    if k == k' then (k', v ++ [x]) :: rest
    else if strLt k k' then (k, [x]) :: (k', v) :: rest
    else (k', v) :: btreePush rest k x

/-- `SwaggerToProtoConverter::collect_operations`. -/
def collectOperations (services : List (Str × List (Str × Str × Operation)))
    (path method : Str) : Option Operation → List (Str × List (Str × Str × Operation))
  | none => services
  | some op =>
    let tags := op.tags.getD [str "Default"]
    tags.foldl (fun m tag => btreePush m tag (path, method, op)) services

/-! ## swagger2proto.rs: the recursive conversion engine

All functions of the `convert` call graph take an explicit fuel that every
inter-function call decrements.  The Rust original recurses unboundedly (its
cycle guard only covers named expansions), so the fuel is genuine: conversion
at fuel 0 is the embedded stand-in for stack exhaustion. -/

mutual

/-- `SwaggerToProtoConverter::convert_schema_to_message`.  The in-progress name
is pushed before dispatch; on the `Ok` path it is popped again, while an `Err`
from a handler propagates through `?` without reaching the pop. -/
def convertSchemaToMessage : Nat → ConvState → Str → Schema → List (Str × Schema) →
    Option Components → Except ConverterError Message × ConvState
  | 0, st, _, _, _, _ => (.error .outOfFuel, st)
  | fuel+1, st, name, schema, defs, comps =>
    if st.currentRefs.contains name then
      (.error (.circularReference name), st)
    else
      let st := { st with currentRefs := st.currentRefs ++ [name] }
      let msg := Message.mk name [] [] [] []
      let msg :=
        match schema.description with
        | some d => (rustLines d).foldl (fun m l => m.addComment (trimStr l)) msg
        | none => msg
      let handled : Except ConverterError Message × ConvState :=
        match schema.oneOf with
        | some items => handleOneOfAnyOf fuel st msg name (str "OneOf") items defs comps
        | none =>
          match schema.allOf with
          | some items => handleAllOf fuel st msg items defs comps
          | none =>
            match schema.anyOf with
            | some items => handleOneOfAnyOf fuel st msg name (str "AnyOf") items defs comps
            | none =>
              match schema.properties with
              | some props => handleProperties fuel st msg name props schema.required defs comps
              | none =>
                match schema.additionalProperties with
                | some ap => handleAdditionalProperties fuel st msg ap defs comps
                | none =>
                  match schema.enumValues with
                  | some evs => handleRootEnum st msg name evs
                  | none => (.ok msg, st)
      match handled with
      | (.error e, st') => (.error e, st')
      | (.ok m, st') => (.ok m, { st' with currentRefs := st'.currentRefs.dropLast })

  termination_by structural fuel _ _ _ _ _ => fuel

/-- `SwaggerToProtoConverter::handle_one_of_any_of`. -/
def handleOneOfAnyOf : Nat → ConvState → Message → Str → Str → List SchemaRef →
    List (Str × Schema) → Option Components → Except ConverterError Message × ConvState
  | 0, st, _, _, _, _, _, _ => (.error .outOfFuel, st)
  | fuel+1, st, msg, name, suffix, items, defs, comps =>
    let typeName := name ++ suffix
    match oneOfFieldsLoop fuel st items 0 defs comps [] with
    | (.error e, st') => (.error e, st')
    | (.ok fields, st') =>
      match addFieldsToMessage (Message.mk typeName [] [] [] []) fields with
      | .error e => (.error e, st')
      | .ok nestedMsg =>
        match msg.addNestedMessage nestedMsg with
        | .error e => (.error e, st')
        | .ok msg' =>
          match msg'.addField (Field.new (lowerStr suffix) typeName 1 .optional) with
          | .error e => (.error e, st')
          | .ok m => (.ok m, st')

  termination_by structural fuel _ _ _ _ _ _ _ => fuel

/-- The `for (i, item) in items.iter().enumerate()` loop of
`handle_one_of_any_of`: one optional `variant_<i+1>` field per alternative. -/
def oneOfFieldsLoop : Nat → ConvState → List SchemaRef → Nat → List (Str × Schema) →
    Option Components → List Field → Except ConverterError (List Field) × ConvState
  | 0, st, _, _, _, _, _ => (.error .outOfFuel, st)
  | _+1, st, [], _, _, _, acc => (.ok acc, st)
  | fuel+1, st, item :: rest, i, defs, comps, acc =>
    match schemaRefToType fuel st item defs comps with
    | (.error e, st') => (.error e, st')
    | (.ok ft, st') =>
      oneOfFieldsLoop fuel st' rest (i + 1) defs comps
        (acc ++ [Field.new (str "variant_" ++ natToStr (i + 1)) ft ((i + 1 : Nat) : Int) .optional])

  termination_by structural fuel _ _ _ _ _ _ => fuel

/-- `SwaggerToProtoConverter::handle_all_of`. -/
def handleAllOf : Nat → ConvState → Message → List SchemaRef → List (Str × Schema) →
    Option Components → Except ConverterError Message × ConvState
  | 0, st, _, _, _, _ => (.error .outOfFuel, st)
  | fuel+1, st, msg, items, defs, comps =>
    match allOfItemsLoop fuel st msg items 1 defs comps with
    | (.error e, st') => (.error e, st')
    | (.ok (m, _), st') => (.ok m, st')

  termination_by structural fuel _ _ _ _ _ => fuel

/-- The `for item in items` loop of `handle_all_of`; the field-number counter
runs across all alternatives. -/
def allOfItemsLoop : Nat → ConvState → Message → List SchemaRef → Nat →
    List (Str × Schema) → Option Components → Except ConverterError (Message × Nat) × ConvState
  | 0, st, _, _, _, _, _ => (.error .outOfFuel, st)
  | _+1, st, msg, [], n, _, _ => (.ok (msg, n), st)
  | fuel+1, st, msg, item :: rest, n, defs, comps =>
    match resolveSchemaRef item defs comps with
    | .error e => (.error e, st)
    | .ok resolved =>
      match resolved.properties with
      | some props =>
        match allOfPropsLoop fuel st msg props n defs comps with
        | (.error e, st') => (.error e, st')
        | (.ok (m', n'), st') => allOfItemsLoop fuel st' m' rest n' defs comps
      | none => allOfItemsLoop fuel st msg rest n defs comps

  termination_by structural fuel _ _ _ _ _ _ => fuel

/-- The `for (prop_name, prop_schema) in properties` loop of `handle_all_of`:
every property becomes a top-level optional field, inserted through the
uniqueness-checked `Message::add_field` whose error propagates. -/
def allOfPropsLoop : Nat → ConvState → Message → List (Str × Schema) → Nat →
    List (Str × Schema) → Option Components → Except ConverterError (Message × Nat) × ConvState
  | 0, st, _, _, _, _, _ => (.error .outOfFuel, st)
  | _+1, st, msg, [], n, _, _ => (.ok (msg, n), st)
  | fuel+1, st, msg, (propName, propSchema) :: rest, n, defs, comps =>
    match schemaToType fuel st propSchema defs comps with
    | (.error e, st') => (.error e, st')
    | (.ok tn, st') =>
      match msg.addField (Field.new (sanitizeFieldName propName) tn (n : Int) .optional) with
      | .error e => (.error e, st')
      | .ok m' => allOfPropsLoop fuel st' m' rest (n + 1) defs comps

  termination_by structural fuel _ _ _ _ _ _ => fuel

/-- `SwaggerToProtoConverter::handle_properties`. -/
def handleProperties : Nat → ConvState → Message → Str → List (Str × Schema) →
    Option (List Str) → List (Str × Schema) → Option Components →
    Except ConverterError Message × ConvState
  | 0, st, _, _, _, _, _, _ => (.error .outOfFuel, st)
  | fuel+1, st, msg, messageName, props, required, defs, comps =>
    propsLoop fuel st msg messageName props required 1 defs comps

  termination_by structural fuel _ _ _ _ _ _ _ => fuel

/-- The property loop of `handle_properties`: `//`-prefixed names are skipped,
property enums synthesize `<Message><PascalProp>` enums numbered from 0,
`repeated <T>` types are wrapped into a memoized `<T>List` message, and the
field rule comes from the `required` list. -/
def propsLoop : Nat → ConvState → Message → Str → List (Str × Schema) →
    Option (List Str) → Nat → List (Str × Schema) → Option Components →
    Except ConverterError Message × ConvState
  | 0, st, _, _, _, _, _, _, _ => (.error .outOfFuel, st)
  | _+1, st, msg, _, [], _, _, _, _ => (.ok msg, st)
  | fuel+1, st, msg, mn, (propName, propSchema) :: rest, req, n, defs, comps =>
    if startsWithStr (str "//") propName then
      propsLoop fuel st msg mn rest req n defs comps
    else
      let msg :=
        match propSchema.description with
        | some d => (rustLines d).foldl (fun (m : Message) l => m.addComment (str "// " ++ trimStr l)) msg
        | none => msg
      let typeStep : Except ConverterError Str × ConvState :=
        match propSchema.enumValues with
        | some evs =>
          let enumName := mn ++ toPascalCase propName
          match buildEnumValues { name := enumName, values := [], comments := [] } evs 0 0 with
          | .error e => (.error e, st)
          | .ok ed =>
            match st.proto.addEnum ed with
            | .error e => (.error e, st)
            | .ok p => (.ok enumName, { st with proto := p })
        | none => schemaToType fuel st propSchema defs comps
      match typeStep with
      | (.error e, st') => (.error e, st')
      | (.ok typeName, st') =>
        let wrapStep : Except ConverterError (Str × FieldRule) × ConvState :=
          if startsWithStr (str "repeated ") typeName then
            let itemType := trimStartMatchesStr (str "repeated ") typeName
            let listType := itemType ++ str "List"
            if st'.generatedMessages.contains listType then
              (.ok (listType, FieldRule.optional), st')
            else
              match (Message.mk listType [] [] [] []).addField
                (Field.new (str "items") (str "repeated " ++ itemType) 1 .optional) with
              | .error e => (.error e, st')
              | .ok lm =>
                match st'.proto.addMessage lm with
                | .error e => (.error e, st')
                | .ok p =>
                  (.ok (listType, FieldRule.optional),
                   { st' with proto := p, generatedMessages := st'.generatedMessages ++ [listType] })
          else
            let rule := if (req.getD []).contains propName then FieldRule.required else FieldRule.optional
            (.ok (typeName, rule), st')
        match wrapStep with
        | (.error e, st'') => (.error e, st'')
        | (.ok (finalType, rule), st'') =>
          match msg.addField (Field.new (sanitizeFieldName propName) finalType (n : Int) rule) with
          | .error e => (.error e, st'')
          | .ok m' => propsLoop fuel st'' m' mn rest req (n + 1) defs comps

  termination_by structural fuel _ _ _ _ _ _ _ _ => fuel

/-- `SwaggerToProtoConverter::handle_additional_properties`. -/
def handleAdditionalProperties : Nat → ConvState → Message → SchemaRef →
    List (Str × Schema) → Option Components → Except ConverterError Message × ConvState
  | 0, st, _, _, _, _ => (.error .outOfFuel, st)
  | fuel+1, st, msg, ap, defs, comps =>
    match schemaRefToType fuel st ap defs comps with
    | (.error e, st') => (.error e, st')
    | (.ok vt, st') =>
      match msg.addField (Field.new (str "properties") (str "map<string, " ++ vt ++ str ">") 1 .optional) with
      | .error e => (.error e, st')
      | .ok m => (.ok m, st')

  termination_by structural fuel _ _ _ _ _ => fuel

/-- `SwaggerToProtoConverter::schema_to_type`.  Note that the early
`enum_values` check makes the source's `None if enum_values.is_some()` match
arm unreachable; the embedding therefore has no counterpart for it. -/
def schemaToType : Nat → ConvState → Schema → List (Str × Schema) → Option Components →
    Except ConverterError Str × ConvState
  | 0, st, _, _, _ => (.error .outOfFuel, st)
  | fuel+1, st, schema, defs, comps =>
    match schema.refPath with
    | some rp => (.ok (resolveRefName rp), st)
    | none =>
      match schema.enumValues with
      | some evs =>
        let (r, st) := nextRand st
        let enumName := str "Enum_" ++ natToStr r
        match buildEnumValues { name := enumName, values := [], comments := [] } evs 0 1 with
        | .error e => (.error e, st)
        | .ok ed =>
          match st.proto.addEnum ed with
          | .error e => (.error e, st)
          | .ok p => (.ok enumName, { st with proto := p })
      | none =>
        match schema.type_ with
        | some t =>
          if t == str "integer" then
            (.ok (if schema.format == some (str "int64") then str "int64"
                  else if schema.format == some (str "int32") then str "int32"
                  else str "int64"), st)
          else if t == str "number" then
            (.ok (if schema.format == some (str "double") then str "double"
                  else if schema.format == some (str "float") then str "float"
                  else str "double"), st)
          else if t == str "boolean" then (.ok (str "bool"), st)
          else if t == str "string" then
            (.ok (if schema.format == some (str "date") || schema.format == some (str "date-time") then
                    str "google.protobuf.Timestamp"
                  else if schema.format == some (str "byte") || schema.format == some (str "binary") then
                    str "bytes"
                  else str "string"), st)
          else if t == str "array" then
            match schema.items with
            | none => (.error .invalidArrayDefinition, st)
            | some items =>
              match schemaRefToType fuel st items defs comps with
              | (.error e, st') => (.error e, st')
              | (.ok it, st') => (.ok (str "repeated " ++ it), st')
          else if t == str "object" then
            if schema.properties.isSome || schema.allOf.isSome then
              let (r, st) := nextRand st
              let tempName := str "NestedObject_" ++ natToStr r
              match convertSchemaToMessage fuel st tempName schema defs comps with
              | (.error e, st') => (.error e, st')
              | (.ok m, st') =>
                match st'.proto.addMessage m with
                | .error e => (.error e, st')
                | .ok p => (.ok tempName, { st' with proto := p })
            else
              match schema.additionalProperties with
              | some ap =>
                match schemaRefToType fuel st ap defs comps with
                | (.error e, st') => (.error e, st')
                | (.ok vt, st') => (.ok (str "map<string, " ++ vt ++ str ">"), st')
              | none => (.ok (str "google.protobuf.Struct"), st)
          else (.error (.unsupportedSchemaType t), st)
        | none => (.error (.unsupportedSchemaType (str "unknown")), st)

  termination_by structural fuel _ _ _ _ => fuel

/-- `SwaggerToProtoConverter::schema_ref_to_type`. -/
def schemaRefToType : Nat → ConvState → SchemaRef → List (Str × Schema) → Option Components →
    Except ConverterError Str × ConvState
  | 0, st, _, _, _ => (.error .outOfFuel, st)
  | fuel+1, st, sr, defs, comps =>
    match sr with
    | .ref rp => (.ok (resolveRefName rp), st)
    | .inline s => schemaToType fuel st s defs comps

  termination_by structural fuel _ _ _ _ => fuel

/-- `SwaggerToProtoConverter::process_schemas`: iterate the container, skip
already-generated names, convert, insert, memoize.  The container itself is the
`definitions` argument of every nested conversion. -/
def processSchemas : Nat → ConvState → List (Str × Schema) → List (Str × Schema) →
    Option Components → Except ConverterError Unit × ConvState
  | 0, st, _, _, _ => (.error .outOfFuel, st)
  | _+1, st, _, [], _ => (.ok (), st)
  | fuel+1, st, schemas, (name, schema) :: rest, comps =>
    if st.generatedMessages.contains name then
      processSchemas fuel st schemas rest comps
    else
      match convertSchemaToMessage fuel st name schema schemas comps with
      | (.error e, st') => (.error e, st')
      | (.ok msg, st') =>
        match st'.proto.addMessage msg with
        | .error e => (.error e, st')
        | .ok p =>
          processSchemas fuel
            { st' with proto := p, generatedMessages := st'.generatedMessages ++ [name] }
            schemas rest comps

  termination_by structural fuel _ _ _ _ => fuel

/-- `SwaggerToProtoConverter::generate_parameters_message`. -/
def generateParametersMessage : Nat → ConvState → Str → List Parameter →
    List (Str × Schema) → Option Components → Except ConverterError Message × ConvState
  | 0, st, _, _, _, _ => (.error .outOfFuel, st)
  | fuel+1, st, messageName, params, defs, comps =>
    match st.proto.findMessage messageName with
    | some m => (.ok m, st)
    | none => paramsLoop fuel st (Message.mk messageName [] [] [] []) params 1 defs comps

/-- The parameter loop of `generate_parameters_message`. -/
def paramsLoop : Nat → ConvState → Message → List Parameter → Nat →
    List (Str × Schema) → Option Components → Except ConverterError Message × ConvState
  | 0, st, _, _, _, _, _ => (.error .outOfFuel, st)
  | _+1, st, msg, [], _, _, _ => (.ok msg, st)
  | fuel+1, st, msg, param :: rest, n, defs, comps =>
    let msg :=
      match param.description with
      | some d => msg.addComment d
      | none => msg
    let typeStep : Except ConverterError Str × ConvState :=
      match param.schema with
      | some sr => schemaRefToType fuel st sr defs comps
      | none =>
        (.ok (if param.type_ == some (str "integer") then str "int64"
              else if param.type_ == some (str "number") then str "double"
              else if param.type_ == some (str "boolean") then str "bool"
              else str "string"), st)
    match typeStep with
    | (.error e, st') => (.error e, st')
    | (.ok pt, st') =>
      let rule := if param.required.getD false then FieldRule.required else FieldRule.optional
      match msg.addField (Field.new (sanitizeFieldName param.name) pt (n : Int) rule) with
      | .error e => (.error e, st')
      | .ok m' => paramsLoop fuel st' m' rest (n + 1) defs comps

  termination_by structural fuel _ _ _ _ _ _ => fuel

/-- `SwaggerToProtoConverter::generate_body_message`. -/
def generateBodyMessage : Nat → ConvState → Str → RequestBody →
    List (Str × Schema) → Option Components → Except ConverterError Message × ConvState
  | 0, st, _, _, _, _ => (.error .outOfFuel, st)
  | fuel+1, st, messageName, rb, defs, comps =>
    match st.proto.findMessage messageName with
    | some m => (.ok m, st)
    | none =>
      let msg := Message.mk messageName [] [] [] []
      let msg :=
        match rb.description with
        | some d => msg.addComment d
        | none => msg
      match rb.content.head? with
      | some ctmt =>
        match ctmt.2.schema with
        | some sr =>
          match schemaRefToType fuel st sr defs comps with
          | (.error e, st') => (.error e, st')
          | (.ok pt, st') =>
            if containsSub (str "map<") pt || pt == str "google.protobuf.Struct" then
              match msg.addField ((Field.new (str "data") pt 1 .optional).addOption (str "json_name") ctmt.1) with
              | .error e => (.error e, st')
              | .ok m => (.ok m, st')
            else
              match msg.addField ((Field.new (str "data") pt 1 .optional).addComment
                  (str "Content-Type: " ++ ctmt.1)) with
              | .error e => (.error e, st')
              | .ok m => (.ok m, st')
        | none =>
          match msg.addField (Field.new (str "data") (str "string") 1 .optional) with
          | .error e => (.error e, st)
          | .ok m => (.ok m, st)
      | none => (.ok (msg.addComment (str "No content schema defined")), st)

/-- `SwaggerToProtoConverter::generate_request_message`. -/
def generateRequestMessage : Nat → ConvState → Str → Str → Operation →
    List (Str × Schema) → Option Components →
    Except ConverterError (Str × List Message) × ConvState
  | 0, st, _, _, _, _, _ => (.error .outOfFuel, st)
  | fuel+1, st, serviceName, methodName, op, defs, comps =>
    let paramsStep : Except ConverterError (Bool × Bool × Str × List Message) × ConvState :=
      match op.parameters with
      | none => (.ok (false, false, [], []), st)
      | some parameters =>
        let queryParams := parameters.filter (fun p => p.in_ == str "query" || p.in_ == str "path")
        let queryStep : Except ConverterError (Bool × Str × List Message) × ConvState :=
          if queryParams.isEmpty then (.ok (false, [], []), st)
          else
            let qmn := serviceName ++ methodName ++ str "QueryParams"
            match generateParametersMessage fuel st qmn queryParams defs comps with
            | (.error e, st') => (.error e, st')
            | (.ok m, st') => (.ok (true, qmn, [m]), st')
        match queryStep with
        | (.error e, st') => (.error e, st')
        | (.ok (hasQuery, qmn, msgs), st') =>
          match parameters.find? (fun p => p.in_ == str "body") with
          | none => (.ok (hasQuery, false, qmn, msgs), st')
          | some bodyParam =>
            let bmn := serviceName ++ methodName ++ str "RequestBody"
            let fakeRequestBody : RequestBody :=
              { description := bodyParam.description
                content :=
                  match bodyParam.schema with
                  | some sr => [(str "application/json", { schema := some sr })]
                  | none => []
                required := bodyParam.required }
            match generateBodyMessage fuel st' bmn fakeRequestBody defs comps with
            | (.error e, st'') => (.error e, st'')
            | (.ok m, st'') => (.ok (hasQuery, true, qmn, msgs ++ [m]), st'')
    match paramsStep with
    | (.error e, st') => (.error e, st')
    | (.ok (hasQuery, hasBodyParam, qmn, msgs), st') =>
      let bodyStep : Except ConverterError (Bool × List Message) × ConvState :=
        match op.requestBody with
        | none => (.ok (hasBodyParam, msgs), st')
        | some rb =>
          let bmn := serviceName ++ methodName ++ str "RequestBody"
          match generateBodyMessage fuel st' bmn rb defs comps with
          | (.error e, st'') => (.error e, st'')
          | (.ok m, st'') => (.ok (true, msgs ++ [m]), st'')
      match bodyStep with
      | (.error e, st'') => (.error e, st'')
      | (.ok (hasBody, msgs), st'') =>
        if hasQuery && hasBody then
          let combinedName := serviceName ++ methodName ++ str "Request"
          match (Message.mk combinedName [] [] [] []).addField
              (Field.new (str "params") qmn 1 .optional) with
          | .error e => (.error e, st'')
          | .ok cm =>
            match cm.addField (Field.new (str "body")
                (serviceName ++ methodName ++ str "RequestBody") 2 .optional) with
            | .error e => (.error e, st'')
            | .ok cm' => (.ok (combinedName, msgs ++ [cm']), st'')
        else if hasQuery then (.ok (qmn, msgs), st'')
        else if hasBody then (.ok (serviceName ++ methodName ++ str "RequestBody", msgs), st'')
        else (.ok (str "google.protobuf.Empty", msgs), st'')

/-- `SwaggerToProtoConverter::generate_response_type`: the first response whose
status code starts with `2`; a content schema is tried first and, when it maps
to a `repeated` type, wrapped into a memoized `<Item>List` message; otherwise
the legacy direct schema or `$ref` is used untouched; with no success schema at
all the sentinel `google.protobuf.Empty` results. -/
def generateResponseType : Nat → ConvState → Operation → List (Str × Schema) →
    Option Components → Except ConverterError Str × ConvState
  | 0, st, _, _, _ => (.error .outOfFuel, st)
  | fuel+1, st, op, defs, comps =>
    let success := (op.responses.find? (fun p => p.1.head? == some '2')).map (fun p => p.2)
    match success with
    | none => (.ok (str "google.protobuf.Empty"), st)
    | some resp =>
      let contentSchema : Option SchemaRef :=
        match resp.content with
        | some content =>
          match content.head? with
          | some mt => mt.2.schema
          | none => none
        | none => none
      match contentSchema with
      | some sr =>
        match schemaRefToType fuel st sr defs comps with
        | (.error e, st') => (.error e, st')
        | (.ok tn, st') =>
          if startsWithStr (str "repeated ") tn then
            let itemType := trimStartMatchesStr (str "repeated ") tn
            let listType := itemType ++ str "List"
            if st'.generatedMessages.contains listType then (.ok listType, st')
            else
              match (Message.mk listType [] [] [] []).addField
                  (Field.new (str "items") tn 1 .optional) with
              | .error e => (.error e, st')
              | .ok lm =>
                match st'.proto.addMessage lm with
                | .error e => (.error e, st')
                | .ok p =>
                  (.ok listType,
                   { st' with proto := p, generatedMessages := st'.generatedMessages ++ [listType] })
          else (.ok tn, st')
      | none =>
        match resp.schema with
        | some sr => schemaRefToType fuel st sr defs comps
        | none =>
          match resp.refPath with
          | some rp => (.ok (resolveRefName rp), st)
          | none => (.ok (str "google.protobuf.Empty"), st)

/-- The method loop of `generate_service`. -/
def serviceMethodsLoop : Nat → ConvState → Str → Service → List (Str × Str × Operation) →
    List (Str × Schema) → Option Components → Except ConverterError Service × ConvState
  | 0, st, _, _, _, _, _ => (.error .outOfFuel, st)
  | _+1, st, _, svc, [], _, _ => (.ok svc, st)
  | fuel+1, st, serviceName, svc, (path, httpMethod, op) :: rest, defs, comps =>
    let methodName := generateMethodName path httpMethod op
    match generateRequestMessage fuel st serviceName methodName op defs comps with
    | (.error e, st') => (.error e, st')
    | (.ok (reqType, reqMsgs), st') =>
      match addMessages st' reqMsgs with
      | (.error e, stB) => (.error e, stB)
      | (.ok _, stB) =>
        match generateResponseType fuel stB op defs comps with
        | (.error e, stC) => (.error e, stC)
        | (.ok respType, stC) =>
          let method := Method.new methodName reqType respType
          let method :=
            match op.summary with
            | some s => method.addComment s
            | none => method
          let method :=
            match op.description with
            | some d => (rustLines d).foldl (fun (m : Method) l => m.addComment (trimStr l)) method
            | none => method
          let method :=
            if op.deprecated.getD false then method.addComment (str "Deprecated") else method
          let method := (method.addOption (str "http_method") httpMethod).addOption (str "http_path") path
          match svc.addMethod method with
          | .error e => (.error e, stC)
          | .ok svc' => serviceMethodsLoop fuel stC serviceName svc' rest defs comps

  termination_by structural fuel _ _ _ _ _ _ => fuel

/-- `SwaggerToProtoConverter::generate_service`. -/
def generateService : Nat → ConvState → Str → List (Str × Str × Operation) →
    List (Str × Schema) → Option Components → Except ConverterError Unit × ConvState
  | 0, st, _, _, _, _ => (.error .outOfFuel, st)
  | fuel+1, st, serviceName, methods, defs, comps =>
    match serviceMethodsLoop fuel st serviceName
        { name := serviceName ++ str "Service", methods := [], comments := [] } methods defs comps with
    | (.error e, st') => (.error e, st')
    | (.ok svc, st') =>
      match st'.proto.addService svc with
      | .error e => (.error e, st')
      | .ok p => (.ok (), { st' with proto := p })

/-- The tag loop of `process_services` over the sorted tag map with `Default`
already removed. -/
def servicesLoop : Nat → ConvState → List (Str × List (Str × Str × Operation)) →
    List (Str × Schema) → Option Components → Except ConverterError Unit × ConvState
  | 0, st, _, _, _ => (.error .outOfFuel, st)
  | _+1, st, [], _, _ => (.ok (), st)
  | fuel+1, st, (tag, methods) :: rest, defs, comps =>
    if methods.isEmpty then servicesLoop fuel st rest defs comps
    else
      match generateService fuel st (toPascalCase tag) methods defs comps with
      | (.error e, st') => (.error e, st')
      | (.ok _, st') => servicesLoop fuel st' rest defs comps

  termination_by structural fuel _ _ _ _ => fuel

/-- `SwaggerToProtoConverter::process_services`: group operations by tag into a
sorted map, run the `Default` tag first (when non-empty), then the remaining
tags in sorted order. -/
def processServices : Nat → ConvState → List (Str × PathItem) → List (Str × Schema) →
    Option Components → Except ConverterError Unit × ConvState
  | 0, st, _, _, _ => (.error .outOfFuel, st)
  | fuel+1, st, paths, defs, comps =>
    let services := paths.foldl
      (fun m p =>
        let m := collectOperations m p.1 (str "GET") p.2.get
        let m := collectOperations m p.1 (str "POST") p.2.post
        let m := collectOperations m p.1 (str "PUT") p.2.put
        let m := collectOperations m p.1 (str "DELETE") p.2.delete
        collectOperations m p.1 (str "PATCH") p.2.patch)
      []
    let defaultOps := services.lookup (str "Default")
    let remaining := services.filter (fun p => p.1 ≠ str "Default")
    let defaultStep : Except ConverterError Unit × ConvState :=
      match defaultOps with
      | some ops =>
        if ops.isEmpty then (.ok (), st)
        else generateService fuel st (str "Default") ops defs comps
      | none => (.ok (), st)
    match defaultStep with
    | (.error e, st') => (.error e, st')
    | (.ok _, st') => servicesLoop fuel st' remaining defs comps

end

/-- `SwaggerToProtoConverter::process_swagger_doc`: legacy `definitions` are
processed with no components in scope, then `components.schemas` with the
components, then the services. -/
def processSwaggerDoc (fuel : Nat) (st : ConvState) (spec : SwaggerDoc) :
    Except ConverterError Unit × ConvState :=
  let step1 : Except ConverterError Unit × ConvState :=
    match spec.definitions with
    | some defs => processSchemas fuel st defs defs none
    | none => (.ok (), st)
  match step1 with
  | (.error e, st') => (.error e, st')
  | (.ok _, st') =>
    let step2 : Except ConverterError Unit × ConvState :=
      match spec.components with
      | some comps =>
        match comps.schemas with
        | some schemas => processSchemas fuel st' schemas schemas (some comps)
        | none => (.ok (), st')
      | none => (.ok (), st')
    match step2 with
    | (.error e, st'') => (.error e, st'')
    | (.ok _, st'') => processServices fuel st'' spec.paths (spec.definitions.getD []) spec.components

/-- `SwaggerToProtoConverter::convert_file` without the file I/O and JSON
decoding: run a fresh converter (with the given entropy stream) over the
decoded document and render the resulting file. -/
def swaggerToProtoText (fuel : Nat) (packageName : Str) (rng : List Nat) (spec : SwaggerDoc) :
    Except ConverterError Str :=
  match processSwaggerDoc fuel (ConvState.new packageName rng) spec with
  | (.error e, _) => .error e
  | (.ok _, st) => .ok st.proto.toProtoText

/-! ## Concrete fixtures used by the verification theorems -/

/-- A schema with every optional part absent. -/
def emptySchema : Schema := .mk none none none none none none none none none none none none

def scalarSchema (t : Str) : Schema :=
  .mk (some t) none none none none none none none none none none none

def scalarFmtSchema (t f : Str) : Schema :=
  .mk (some t) (some f) none none none none none none none none none none

def propsSchema (props : List (Str × Schema)) (req : Option (List Str)) : Schema :=
  .mk none none none none (some props) none req none none none none none

def allOfSchema (items : List SchemaRef) : Schema :=
  .mk none none none none none none none none none none (some items) none

def enumOnlySchema (vs : List JsonVal) : Schema :=
  .mk none none none none none none none (some vs) none none none none

/-- An `array`-typed schema with no item schema. -/
def arrayNoItemsSchema : Schema :=
  .mk (some (str "array")) none none none none none none none none none none none

/-- An `array`-typed schema whose items are a `$ref`. -/
def arrayOfRefSchema (rp : Str) : Schema :=
  .mk (some (str "array")) none none (some (.ref rp)) none none none none none none none none

/-- A fresh converter state over package `pkg` with an empty entropy stream. -/
def st0 : ConvState := ConvState.new (str "pkg") []

/-- The Scenario A schema `{properties: {id: integer/int64, name: string},
required: [id]}`, with the property map iterated in the order `[id, name]`.
The source's `properties` is a `HashMap`, so this iteration order is one of
two the program may take on the same schema. -/
def petSchema : Schema :=
  propsSchema
    [(str "id", scalarFmtSchema (str "integer") (str "int64")),
     (str "name", scalarSchema (str "string"))]
    (some [str "id"])

/-- The same Scenario A schema — identical property map and required list —
with the property map iterated in the other order, `[name, id]`. -/
def petSchemaFlipped : Schema :=
  propsSchema
    [(str "name", scalarSchema (str "string")),
     (str "id", scalarFmtSchema (str "integer") (str "int64"))]
    (some [str "id"])

/-- A schema whose expansion fails (property `p` is an array with no items). -/
def leakSchema : Schema := propsSchema [(str "p", arrayNoItemsSchema)] none

/-- A schema whose expansion succeeds with one string field. -/
def okSchema : Schema := propsSchema [(str "x", scalarSchema (str "string"))] none

/-- Two `allOf` alternatives declaring the same property name `a`. -/
def allOfDupSchema : Schema :=
  allOfSchema [.inline (propsSchema [(str "a", scalarSchema (str "string"))] none),
               .inline (propsSchema [(str "a", scalarSchema (str "string"))] none)]

/-- Two `allOf` alternatives declaring the same property name `x`. -/
def allOfDupXSchema : Schema :=
  allOfSchema [.inline (propsSchema [(str "x", scalarSchema (str "string"))] none),
               .inline (propsSchema [(str "x", scalarSchema (str "string"))] none)]

/-- Two `allOf` alternatives with distinct property names. -/
def allOfMergeSchema : Schema :=
  allOfSchema [.inline (propsSchema [(str "a", scalarSchema (str "string"))] none),
               .inline (propsSchema [(str "b", scalarSchema (str "boolean"))] none)]

/-- A document whose only definition forces an anonymous enum through
`schema_to_type`, drawing a synthetic `Enum_<random>` name. -/
def rngDoc : SwaggerDoc :=
  { paths := []
    definitions := some
      [(str "A", allOfSchema
        [.inline (propsSchema [(str "s", enumOnlySchema [.string (str "x")])] none)])]
    components := none }

/-- An operation whose only fields are its responses. -/
def bareOp (rs : List (Str × Response)) : Operation :=
  { tags := none, summary := none, description := none, operationId := none,
    parameters := none, requestBody := none, responses := rs, deprecated := none }

/-- A legacy (Swagger 2.0) success response: direct `schema`, no `content`. -/
def opLegacyArray : Operation :=
  bareOp [(str "200",
    { description := str "ok", content := none, refPath := none,
      schema := some (.inline (arrayOfRefSchema (str "#/definitions/Pet"))) })]

/-- A modern (OpenAPI 3.0) success response: array schema under `content`. -/
def opModernArray : Operation :=
  bareOp [(str "200",
    { description := str "ok",
      content := some [(str "application/json",
        { schema := some (.inline (arrayOfRefSchema (str "#/definitions/Pet"))) })],
      refPath := none, schema := none })]

/-- A success response carrying both a content schema (`Pet`) and a legacy
direct schema (`Other`). -/
def opBothDialects : Operation :=
  bareOp [(str "200",
    { description := str "ok",
      content := some [(str "application/json", { schema := some (.ref (str "#/definitions/Pet")) })],
      refPath := none, schema := some (.ref (str "#/definitions/Other")) })]

/-- An operation with no 2xx response at all. -/
def opNoSuccess : Operation :=
  bareOp [(str "404",
    { description := str "gone", content := none, refPath := none, schema := none })]

/-- The minimal emitted-then-reparsed Tree Model for the round-trip check. -/
def roundtripFile : ProtoFile :=
  { syntax_ := str "proto3", package := str "pkg",
    imports := [str "google/protobuf/empty.proto"],
    messages := [], enums := [], services := [] }

end DotProto

open DotProto

set_option maxRecDepth 100000

/-- C1 (code bug): the spec's round-trip property `parse(emit(M)) = M` fails on
the code even for the minimal Tree Model with no declarations: the parser's
`syntax` line handling trims only quotes and semicolons, so the leading space
of `syntax = "proto3";` survives and the re-parsed `syntax` field is
`" \"proto3"`, not `"proto3"`.  (Further round-trip violations exist: nested
messages are flattened to file level — see the C4 theorems — field comments
are dropped by a double `mem::take`, and `rpc` lines are re-parsed with
`returns` as the input type.) -/
theorem c1_roundtrip_code_bug :
    ProtoParser.parse (ProtoFile.toProtoText roundtripFile) =
      .ok { roundtripFile with syntax_ := str " \"proto3" } ∧
    str " \"proto3" ≠ str "proto3" :=
  ⟨rfl, by decide⟩

/-- C2 (code bug): forward conversion is not a function of the document alone.
On `rngDoc` the converter draws `rand::random::<u32>()` to name the anonymous
enum (`Enum_<r>`), so two runs whose entropy streams differ — as two real runs
do with overwhelming probability — produce different output text, although
both succeed. -/
theorem c2_determinism_code_bug :
    (swaggerToProtoText 99 (str "pkg") [0] rngDoc).toOption.isSome = true ∧
    (swaggerToProtoText 99 (str "pkg") [0] rngDoc).toOption ≠
      (swaggerToProtoText 99 (str "pkg") [1] rngDoc).toOption :=
  ⟨by decide, by decide⟩

/-- C3 (counterexample): the claim says the in-progress name is popped on every
exit path.  Expanding `A` = `{p: array-with-no-items}` from a state with an
empty reference stack fails with `InvalidArrayDefinition`, and after the
failing exit the name `A` is still on `current_refs` — the error return of the
`?` operator skips the pop. -/
theorem c3_pop_counterexample :
    (convertSchemaToMessage 9 st0 (str "A") leakSchema [] none).1 =
      .error .invalidArrayDefinition ∧
    (convertSchemaToMessage 9 st0 (str "A") leakSchema [] none).2.currentRefs = [str "A"] ∧
    st0.currentRefs = [] :=
  ⟨rfl, rfl, rfl⟩

/-- C3 (amended): before expanding a named schema the name is pushed; if the
name is already on the stack the expansion fails immediately with
`CircularReference(name)` without recursing and without touching the state; on
a successful expansion the name is popped on exit; but on a failing expansion
the early error return leaves the name on the stack (the whole conversion then
aborts), and at failure time no message has been inserted for the name still
open on the stack (the Tree Model is exactly as before the call). -/
theorem c3_push_pop_discipline :
    (∀ (fuel : Nat) (st : ConvState) (name : Str) (schema : Schema)
        (defs : List (Str × Schema)) (comps : Option Components),
        st.currentRefs.contains name = true →
        convertSchemaToMessage (fuel + 1) st name schema defs comps =
          (.error (.circularReference name), st)) ∧
    convertSchemaToMessage 9 st0 (str "B") okSchema [] none =
      (.ok (.mk (str "B") [Field.new (str "x") (str "string") 1 .optional] [] [] []), st0) ∧
    (convertSchemaToMessage 9 st0 (str "C") leakSchema [] none).2.currentRefs = [str "C"] ∧
    (convertSchemaToMessage 9 st0 (str "C") leakSchema [] none).2.proto = st0.proto := by
  refine ⟨?_, rfl, rfl, rfl⟩
  intro fuel st name schema defs comps h
  have h' : name ∈ st.currentRefs := by simpa using h
  simp [convertSchemaToMessage, h']

/-- C3 (witness): the circular-reference guard fires at a concrete state that
already holds the name `X`. -/
theorem c3_push_pop_discipline_witness :
    convertSchemaToMessage 1 { st0 with currentRefs := [str "X"] } (str "X")
        emptySchema [] none =
      (.error (.circularReference (str "X")), { st0 with currentRefs := [str "X"] }) :=
  c3_push_pop_discipline.1 0 _ _ _ _ _ (by decide)

/-- C4 (counterexample): the claim says a bare `}` inserts the popped construct
into the construct now on top of the stack.  Parsing a message `B` nested
inside a message `A` instead yields both at file level — the popped construct
is always inserted into the file — and in stack order, so the result is
`[B, A]` with no nesting anywhere. -/
theorem c4_end_counterexample :
    ProtoParser.parse (str "message A \x7b\nmessage B \x7b\n\x7d\n\x7d") =
      .ok { ProtoFile.defaultFile with
            messages := [.mk (str "B") [] [] [] [], .mk (str "A") [] [] [] []] } ∧
    (ProtoParser.parse (str "message A \x7b\nmessage B \x7b\n\x7d\n\x7d")).map
        (fun f => f.messages.map Message.nestedMessages) = .ok [[], []] :=
  ⟨rfl, rfl⟩

/-- C4 (amended): a bare `}` pops the top open construct and always inserts it
into the file — regardless of any construct still below it on the stack, so
nesting is flattened — using the name-uniqueness-checked file insertion, and a
duplicate name therefore fails the parse with the `DuplicateMessageName`
converter error (the `ProtoParseError::DuplicateDefinition` variant of the
source is never raised). -/
theorem c4_end_pops_into_file :
    (∀ (item : ProtoItem) (rest : List ProtoItem) (pending : List Str)
        (file f' : ProtoFile), insertPopped item file = .ok f' →
        applyLineType .endBlock ⟨pending, item :: rest, file⟩ = .ok ⟨[], rest, f'⟩) ∧
    (∀ (item : ProtoItem) (rest : List ProtoItem) (pending : List Str)
        (file : ProtoFile) (e : ConverterError), insertPopped item file = .error e →
        applyLineType .endBlock ⟨pending, item :: rest, file⟩ = .error (.converter e)) ∧
    ProtoParser.parse (str "message C \x7b\nmessage D \x7b\n\x7d\n\x7d") =
      .ok { ProtoFile.defaultFile with
            messages := [.mk (str "D") [] [] [] [], .mk (str "C") [] [] [] []] } ∧
    ProtoParser.parse (str "message A \x7b\n\x7d\nmessage A \x7b\n\x7d") =
      .error (.converter (.duplicateMessageName (str "A"))) := by
  refine ⟨?_, ?_, rfl, rfl⟩
  · intro item rest pending file f' h
    simp [applyLineType, h]
  · intro item rest pending file e h
    simp [applyLineType, h]

/-- C4 (witness): popping message `A` over an empty file inserts it at file
level even though another message is still open below it on the stack. -/
theorem c4_end_pops_into_file_witness :
    applyLineType .endBlock
        ⟨[], [ProtoItem.message (.mk (str "A") [] [] [] []),
              ProtoItem.message (.mk (str "B") [] [] [] [])], ProtoFile.defaultFile⟩ =
      .ok ⟨[], [ProtoItem.message (.mk (str "B") [] [] [] [])],
           { ProtoFile.defaultFile with messages := [.mk (str "A") [] [] [] []] }⟩ :=
  c4_end_pops_into_file.1 _ _ _ _ _ rfl

/-- C5 (counterexample): the claim fixes the field numbers (`id` = 1,
`name` = 2), but `handle_properties` assigns numbers by iterating the
`properties: HashMap<String, Schema>`, whose order the program does not
control.  Under the equally valid iteration order `[name, id]` of the very
same property map, conversion succeeds with `name` = 1 and `id` = 2 — `id`
does not get field number 1 as the claim requires. -/
theorem c5_field_numbers_counterexample :
    convertSchemaToMessage 9 st0 (str "Pet") petSchemaFlipped [] none =
      (.ok (.mk (str "Pet")
        [Field.new (str "name") (str "string") 1 .optional,
         Field.new (str "id") (str "int64") 2 .required] [] [] []), st0) ∧
    ((convertSchemaToMessage 9 st0 (str "Pet") petSchemaFlipped [] none).1.map
        (fun m => m.fields.map (fun f => (f.name, f.number)))) =
      .ok [(str "name", 1), (str "id", 2)] :=
  ⟨rfl, rfl⟩

/-- C5 (amended): converting the named schema `Pet` with properties
`{id: integer/int64, name: string}` and required list `[id]` yields message
`Pet` with exactly the two fields `id` (`int64`, rule required) and `name`
(`string`, rule optional); the field numbers 1 and 2 are assigned in whatever
order the property map is iterated, which the program leaves unspecified:
iterating `[id, name]` gives `id` = 1 and `name` = 2 as the scenario states,
while iterating `[name, id]` gives `name` = 1 and `id` = 2.  The converter
state is returned unchanged either way. -/
theorem c5_scenario_a_amended :
    convertSchemaToMessage 9 st0 (str "Pet") petSchema [] none =
      (.ok (.mk (str "Pet")
        [Field.new (str "id") (str "int64") 1 .required,
         Field.new (str "name") (str "string") 2 .optional] [] [] []), st0) ∧
    convertSchemaToMessage 9 st0 (str "Pet") petSchemaFlipped [] none =
      (.ok (.mk (str "Pet")
        [Field.new (str "name") (str "string") 1 .optional,
         Field.new (str "id") (str "int64") 2 .required] [] [] []), st0) :=
  ⟨rfl, rfl⟩

/-- C6 (counterexample): the claim says a duplicate field name across `allOf`
alternatives keeps the earlier field and still succeeds.  Converting `M` =
`allOf [{a: string}, {a: string}]` instead fails: the uniqueness-checked
`add_field` error propagates through `?` and aborts the conversion. -/
theorem c6_allof_counterexample :
    (convertSchemaToMessage 9 st0 (str "M") allOfDupSchema [] none).1 =
      .error (.invalidFieldName (str "Duplicate field name: a")) :=
  rfl

/-- C6 (amended): `allOf` is flattened — each alternative's properties are
merged in order as top-level optional fields with a running field number — but
when a later alternative repeats a field name the whole conversion fails with
the duplicate-field error `InvalidFieldName("Duplicate field name: _")`
instead of keeping the earlier field and succeeding. -/
theorem c6_allof_merge :
    convertSchemaToMessage 9 st0 (str "N") allOfMergeSchema [] none =
      (.ok (.mk (str "N")
        [Field.new (str "a") (str "string") 1 .optional,
         Field.new (str "b") (str "bool") 2 .optional] [] [] []), st0) ∧
    convertSchemaToMessage 9 st0 (str "P") allOfDupXSchema [] none =
      (.error (.invalidFieldName (str "Duplicate field name: x")),
       { st0 with currentRefs := [str "P"] }) :=
  ⟨rfl, rfl⟩

/-- C7: in every sibling scope — messages, enums and services of a file;
fields, nested messages and nested enums of a message; values of an enum;
methods of a service — inserting an item whose name is already present fails
with the scope's duplicate-name error.  In the embedding an error result
carries no updated scope: the Rust builders return `Err` before pushing, so
the caller's collection is untouched. -/
theorem c7_sibling_uniqueness :
    (∀ (f : ProtoFile) (m : Message), f.messages.any (fun x => x.name == m.name) = true →
        f.addMessage m = .error (.duplicateMessageName m.name)) ∧
    (∀ (f : ProtoFile) (e : Enum), f.enums.any (fun x => x.name == e.name) = true →
        f.addEnum e = .error (.duplicateMessageName e.name)) ∧
    (∀ (f : ProtoFile) (s : Service), f.services.any (fun x => x.name == s.name) = true →
        f.addService s = .error (.duplicateMessageName s.name)) ∧
    (∀ (m : Message) (fl : Field), m.fields.any (fun x => x.name == fl.name) = true →
        m.addField fl = .error (.invalidFieldName (str "Duplicate field name: " ++ fl.name))) ∧
    (∀ (m child : Message), m.nestedMessages.any (fun x => x.name == child.name) = true →
        m.addNestedMessage child = .error (.duplicateMessageName child.name)) ∧
    (∀ (m : Message) (e : Enum), m.nestedEnums.any (fun x => x.name == e.name) = true →
        m.addNestedEnum e = .error (.duplicateMessageName e.name)) ∧
    (∀ (e : Enum) (v : EnumValue), e.values.any (fun x => x.name == v.name) = true →
        e.addValue v = .error (.invalidFieldName (str "Duplicate enum value: " ++ v.name))) ∧
    (∀ (s : Service) (m : Method), s.methods.any (fun x => x.name == m.name) = true →
        s.addMethod m = .error (.invalidFieldName (str "Duplicate method name: " ++ m.name))) := by
  refine ⟨?_, ?_, ?_, ?_, ?_, ?_, ?_, ?_⟩
  · intro f m h; simp [ProtoFile.addMessage, h]
  · intro f e h; simp [ProtoFile.addEnum, h]
  · intro f s h; simp [ProtoFile.addService, h]
  · intro m fl h; cases m; simp [Message.addField, Message.fields] at h ⊢; simp [h]
  · intro m child h; cases m; simp [Message.addNestedMessage, Message.nestedMessages] at h ⊢; simp [h]
  · intro m e h; cases m; simp [Message.addNestedEnum, Message.nestedEnums] at h ⊢; simp [h]
  · intro e v h; simp [Enum.addValue, h]
  · intro s m h; simp [Service.addMethod, h]

/-- C7 (witness): one concrete duplicate insertion per scope. -/
theorem c7_sibling_uniqueness_witness :
    ({ ProtoFile.defaultFile with messages := [.mk (str "A") [] [] [] []] }).addMessage
        (.mk (str "A") [] [] [] []) = .error (.duplicateMessageName (str "A")) ∧
    ({ ProtoFile.defaultFile with enums := [⟨str "E", [], []⟩] }).addEnum ⟨str "E", [], []⟩ =
      .error (.duplicateMessageName (str "E")) ∧
    ({ ProtoFile.defaultFile with services := [⟨str "S", [], []⟩] }).addService ⟨str "S", [], []⟩ =
      .error (.duplicateMessageName (str "S")) ∧
    (Message.mk (str "M") [Field.new (str "f") (str "string") 1 .optional] [] [] []).addField
        (Field.new (str "f") (str "int64") 2 .optional) =
      .error (.invalidFieldName (str "Duplicate field name: f")) ∧
    (Message.mk (str "M") [] [] [.mk (str "N") [] [] [] []] []).addNestedMessage
        (.mk (str "N") [] [] [] []) = .error (.duplicateMessageName (str "N")) ∧
    (Message.mk (str "M") [] [] [] [⟨str "E", [], []⟩]).addNestedEnum ⟨str "E", [], []⟩ =
      .error (.duplicateMessageName (str "E")) ∧
    (Enum.mk (str "E") [⟨str "V", 0, []⟩] []).addValue ⟨str "V", 1, []⟩ =
      .error (.invalidFieldName (str "Duplicate enum value: V")) ∧
    (Service.mk (str "S") [Method.new (str "Go") (str "A") (str "B")] []).addMethod
        (Method.new (str "Go") (str "C") (str "D")) =
      .error (.invalidFieldName (str "Duplicate method name: Go")) :=
  ⟨c7_sibling_uniqueness.1 _ _ (by decide),
   c7_sibling_uniqueness.2.1 _ _ (by decide),
   c7_sibling_uniqueness.2.2.1 _ _ (by decide),
   c7_sibling_uniqueness.2.2.2.1 _ _ (by decide),
   c7_sibling_uniqueness.2.2.2.2.1 _ _ (by decide),
   c7_sibling_uniqueness.2.2.2.2.2.1 _ _ (by decide),
   c7_sibling_uniqueness.2.2.2.2.2.2.1 _ _ (by decide),
   c7_sibling_uniqueness.2.2.2.2.2.2.2 _ _ (by decide)⟩

/-- C8 (counterexample): the claim says every success schema that maps to an
array type is wrapped into a `<Item>List` message.  A legacy (Swagger 2.0)
direct array schema is not wrapped: the output type is the bare
`repeated Pet`, not `PetList`, and no list message is synthesized. -/
theorem c8_response_counterexample :
    generateResponseType 9 st0 opLegacyArray [] none = (.ok (str "repeated Pet"), st0) ∧
    str "repeated Pet" ≠ str "PetList" :=
  ⟨rfl, by decide⟩

/-- C8 (amended): the first response whose status code starts with `2`
supplies the output type, preferring the modern content schema over the legacy
direct schema; an array result is wrapped into a synthesized, memoized
`<Item>List` message (field `items`, repeated item type, number 1) only when
it arrives through the content branch — a legacy direct array schema yields
the bare `repeated` type — and with no success response at all the output is
the sentinel `google.protobuf.Empty`. -/
theorem c8_response_shapes :
    (∀ (fuel : Nat) (st : ConvState) (op : Operation)
        (defs : List (Str × Schema)) (comps : Option Components),
        op.responses.find? (fun p => p.1.head? == some '2') = none →
        generateResponseType (fuel + 1) st op defs comps =
          (.ok (str "google.protobuf.Empty"), st)) ∧
    generateResponseType 9 st0 opModernArray [] none =
      (.ok (str "PetList"),
       { st0 with
         proto := { st0.proto with
                    messages := [.mk (str "PetList")
                      [Field.new (str "items") (str "repeated Pet") 1 .optional] [] [] []] }
         generatedMessages := [str "PetList"] }) ∧
    generateResponseType 9 st0 opBothDialects [] none = (.ok (str "Pet"), st0) := by
  refine ⟨?_, rfl, rfl⟩
  intro fuel st op defs comps h
  simp [generateResponseType, h]

/-- C8 (witness): an operation whose only response is a 404 yields the empty
sentinel. -/
theorem c8_response_shapes_witness :
    generateResponseType 1 st0 opNoSuccess [] none =
      (.ok (str "google.protobuf.Empty"), st0) :=
  c8_response_shapes.1 0 _ _ _ _ rfl

/-- C9: resolving `#/.../Name` takes the trailing path segment as the key,
consults the legacy `definitions` container first, then the modern
`components.schemas` container, and fails with `MissingReference` exactly when
the key is in neither. -/
theorem c9_resolve_schema_ref :
    (∀ (rp key : Str) (s : Schema) (defs : List (Str × Schema)) (comps : Option Components),
        (splitOnChar '/' rp).getLast? = some key →
        defs.lookup key = some s →
        resolveSchemaRef (.ref rp) defs comps = .ok s) ∧
    (∀ (rp key : Str) (s : Schema) (defs : List (Str × Schema)) (c : Components)
        (schemas : List (Str × Schema)),
        (splitOnChar '/' rp).getLast? = some key →
        defs.lookup key = none →
        c.schemas = some schemas →
        schemas.lookup key = some s →
        resolveSchemaRef (.ref rp) defs (some c) = .ok s) ∧
    (∀ (rp key : Str) (defs : List (Str × Schema)) (comps : Option Components),
        (splitOnChar '/' rp).getLast? = some key →
        defs.lookup key = none →
        ((comps.bind Components.schemas).getD []).lookup key = none →
        resolveSchemaRef (.ref rp) defs comps = .error (.missingReference rp)) := by
  refine ⟨?_, ?_, ?_⟩
  · intro rp key s defs comps h1 h2
    simp only [resolveSchemaRef, h1, h2]
  · intro rp key s defs c schemas h1 h2 h3 h4
    simp only [resolveSchemaRef, h1, h2, h3, h4]
  · intro rp key defs comps h1 h2 h3
    cases comps with
    | none => simp only [resolveSchemaRef, h1, h2]
    | some c =>
      cases hc : c.schemas with
      | none => simp only [resolveSchemaRef, h1, h2, hc]
      | some schemas =>
        have h3' : schemas.lookup key = none := by
          rw [show ((some c).bind Components.schemas) = c.schemas from rfl, hc] at h3
          exact h3
        simp only [resolveSchemaRef, h1, h2, hc, h3']

/-- C9 (witness): `#/definitions/Pet` resolves from the legacy container, and
`#/components/schemas/Nope` fails with `MissingReference` when absent from
both containers. -/
theorem c9_resolve_schema_ref_witness :
    resolveSchemaRef (.ref (str "#/definitions/Pet")) [(str "Pet", emptySchema)] none =
      .ok emptySchema ∧
    resolveSchemaRef (.ref (str "#/components/schemas/Nope")) [] none =
      .error (.missingReference (str "#/components/schemas/Nope")) :=
  ⟨c9_resolve_schema_ref.1 _ (str "Pet") _ _ _ rfl rfl,
   c9_resolve_schema_ref.2.2 _ (str "Nope") _ _ rfl rfl rfl⟩

/-- C10: the parser accepts unbalanced braces silently — a bare `}` with an
empty open-construct stack only clears the pending comments and changes
nothing else, and a construct still open when the input ends is discarded
while the parse returns `Ok`, so the unclosed message (and the field parsed
into it) is absent from the result. -/
theorem c10_unbalanced_braces :
    (∀ (pending : List Str) (file : ProtoFile),
        applyLineType .endBlock ⟨pending, [], file⟩ = .ok ⟨[], [], file⟩) ∧
    ProtoParser.parse (str "\x7d") = .ok ProtoFile.defaultFile ∧
    ProtoParser.parse (str "message A \x7b\nstring a = 1;") = .ok ProtoFile.defaultFile :=
  ⟨fun _ _ => rfl, rfl, rfl⟩
